import Mathlib

/-!
Verification of the goesd daemon supervisor
(package goesd, file initutils/goesd/goesd.go).

The supervisor has two entry behaviours:

* Main with no arguments: the startup sequencer — privilege check, then
  Hook, then sourcing of /etc/goesd when present, then the redisd store
  daemon, then the machined configuration daemon, then every registered
  auxiliary daemon with non-negative priority, aborting the sequence at
  the first error.
* Main with the single argument "stop": the stop pipeline — discover all
  sibling processes running the same executable image, send SIGTERM to
  the live ones, sleep 2 seconds, send SIGKILL to the survivors, then
  remove socket-file and pid-file artifacts.

The embedding below is a shallow one: every interaction of the Go code
with the operating system (geteuid, the Hook variable, stat of
/etc/goesd, getenv, command.Main, readlink, glob, stat of
/proc/pid/stat, kill, RemoveAll) is a field of a `World` record, and the
functions return, next to the Go error result, the trace of externally
visible actions they perform, in order.
-/

namespace Goesd

/-- Errors of the supervisor.  `notRoot` is the ErrNotRoot value of
goesd.go, `unexpected` the fmt.Errorf("%v: unexpected", args) value, and
`ext` stands for an opaque error produced by an external call (Hook,
command.Main, readlink, glob, RemoveAll). -/
inductive Err where
  | notRoot : Err
  | unexpected : List String → Err
  | ext : String → Err
deriving DecidableEq, Repr

/-- Externally visible actions of the supervisor, recorded in order of
occurrence.  `hook` is the call of the Hook variable; `cmd args` is a
command.Main(args...) invocation (daemon launches and the sourcing of
/etc/goesd); `sigterm`/`sigkill` are syscall.Kill sends; `sleep` is the
time.Sleep between the two signal passes (seconds); `rmSock`/`rmPid`
are the sockfile.RemoveAll and pidfile.RemoveAll calls. -/
inductive Event where
  | hook : Event
  | cmd : List String → Event
  | sigterm : Int → Event
  | sleep : Nat → Event
  | sigkill : Int → Event
  | rmSock : Event
  | rmPid : Event
deriving DecidableEq, Repr

/-- The state of the operating system and of the process-wide
configuration, as the supervisor observes it during one invocation.

* `euid`: result of os.Geteuid().
* `hook`: result of calling the Hook variable.
* `etcExists`: whether os.Stat("/etc/goesd") returns no error.
* `getenv`: os.Getenv.
* `commandMain`: result of command.Main(args...) for a given argument
  list (covers the source command and every daemon launch).
* `daemons`: the command.Daemon registry.  The loop of Main ranges over
  it with a two-variable range yielding a name string and a priority,
  so command.Daemon is a Go map from name to priority; Go leaves the
  iteration order of a map range unspecified and randomizes it across
  runs.  The field therefore carries the registry together with the one
  iteration order a given run observes: a property of the program that
  is independent of the iteration order must hold for every permutation
  of this list, while a property true only for a fixed list order is
  not guaranteed by the code.
* `selfExe`: result of os.Readlink("/proc/self/exe").
* `thispid`: result of os.Getpid().
* `glob`: result of filepath.Glob("/proc/* /exe") (list of matching
  paths).
* `readlink`: result of os.Readlink on each globbed path.
* `alive1`: whether os.Stat("/proc/pid/stat") succeeds for a given pid
  during the first (SIGTERM) pass.
* `alive2`: the same liveness probe during the second (SIGKILL) pass,
  after the 2 second sleep.
* `sockRemove`, `pidRemove`: the outcome of the final
  sockfile.RemoveAll() and pidfile.RemoveAll() calls, would their
  result be observed. -/
structure World where
  euid : Nat
  hook : Except Err Unit
  etcExists : Bool
  getenv : String → String
  commandMain : List String → Except Err Unit
  daemons : List (String × Int)
  selfExe : Except Err String
  thispid : Int
  glob : Except Err (List String)
  readlink : String → Except Err String
  alive1 : Int → Bool
  alive2 : Int → Bool
  sockRemove : Except Err Unit
  pidRemove : Except Err Unit

/-- The well-known path of the optional environment file (const
EtcGoesd in goesd.go). -/
def EtcGoesd : String := "/etc/goesd"

/-- Helper for strings.Fields: split a character list around runs of
whitespace, accumulating the current field in reverse. -/
def fieldsAux (cur : List Char) : List Char → List (List Char)
  | [] => if cur = [] then [] else [cur.reverse]
  | c :: rest =>
    if c.isWhitespace then
      if cur = [] then fieldsAux [] rest
      else cur.reverse :: fieldsAux [] rest
    else fieldsAux (c :: cur) rest

/-- strings.Fields: splits around runs of whitespace; an empty or
all-whitespace string yields no fields. -/
def strFields (s : String) : List String :=
  (fieldsAux [] s.data).map String.mk

/-- Whether the first character list is an initial run of the
second. -/
def isInitRun : List Char → List Char → Bool
  | [], _ => true
  | _ :: _, [] => false
  | c :: cs, d :: ds => c == d && isInitRun cs ds

/-- strings.TrimSuffix: drops the trailing `t` when present, otherwise
returns `s` unchanged. -/
def goTrimTail (s t : String) : String :=
  if isInitRun t.data.reverse s.data.reverse then
    String.mk (s.data.take (s.data.length - t.data.length))
  else s

/-- strings.TrimPrefix: drops the leading `t` when present, otherwise
returns `s` unchanged. -/
def goTrimHead (s t : String) : String :=
  if isInitRun t.data s.data then String.mk (s.data.drop t.data.length)
  else s

/-- Parse a non-empty all-digit character list as a decimal number. -/
def digitsToNat? (cs : List Char) : Option Nat :=
  if cs ≠ [] ∧ cs.all Char.isDigit then
    some (cs.foldl (fun n c => n * 10 + (c.toNat - 48)) 0)
  else none

/-- fmt.Sscan(s, &pid) into an int variable initialised to its zero
value: a decimal token (optionally signed) is parsed into the variable,
and on a parse failure the variable keeps its zero value 0 (this is
what happens for the "self" and "thread-self" entries of /proc). -/
def sscanInt (s : String) : Int :=
  match s.data with
  | [] => 0
  | c :: cs =>
    if c = '-' then
      match digitsToNat? cs with
      | some n => -(n : Int)
      | none => 0
    else
      match digitsToNat? (c :: cs) with
      | some n => (n : Int)
      | none => 0

/-- Argument list of the store-daemon launch: command.Main is called
with "redisd" followed by the whitespace-split fields of $REDISD (the
Go code distinguishes the empty-fields case, but both branches launch
plain "redisd" then). -/
def redisdArgs (w : World) : List String :=
  let args := strFields (w.getenv "REDISD")
  if args.length > 0 then "redisd" :: args else ["redisd"]

/-- Argument list of the configuration-daemon launch: "machined"
followed by the fields of $MACHINED. -/
def machinedArgs (w : World) : List String :=
  let args := strFields (w.getenv "MACHINED")
  if args.length > 0 then "machined" :: args else ["machined"]

/-- The auxiliary-daemon loop of Main: for each registered daemon, in
the order the map range yields them, skip it when its priority level is
negative, otherwise launch it with command.Main(name); the first
failing launch aborts the loop with its error. -/
def runDaemons (cm : List String → Except Err Unit) :
    List (String × Int) → List Event × Except Err Unit
  | [] => ([], Except.ok ())
  | (name, lvl) :: rest =>
    if lvl < 0 then runDaemons cm rest
    else
      match cm [name] with
      | Except.error e => ([Event.cmd [name]], Except.error e)
      | Except.ok _ =>
        let p := runDaemons cm rest
        (Event.cmd [name] :: p.1, p.2)

/-- The startup sequencer: the body of Main after the privilege check
when args is empty.  Hook, then sourcing of /etc/goesd when the file
exists, then redisd, then machined, then the auxiliary daemons; each
failure returns that error at once. -/
def startMain (w : World) : List Event × Except Err Unit :=
  match w.hook with
  | Except.error e => ([Event.hook], Except.error e)
  | Except.ok _ =>
    let srcEvents : List Event :=
      if w.etcExists then [Event.cmd ["source", EtcGoesd]] else []
    let srcResult : Except Err Unit :=
      if w.etcExists then w.commandMain ["source", EtcGoesd] else Except.ok ()
    match srcResult with
    | Except.error e => (Event.hook :: srcEvents, Except.error e)
    | Except.ok _ =>
      match w.commandMain (redisdArgs w) with
      | Except.error e =>
        (Event.hook :: srcEvents ++ [Event.cmd (redisdArgs w)], Except.error e)
      | Except.ok _ =>
        match w.commandMain (machinedArgs w) with
        | Except.error e =>
          (Event.hook :: srcEvents
            ++ [Event.cmd (redisdArgs w), Event.cmd (machinedArgs w)],
           Except.error e)
        | Except.ok _ =>
          let p := runDaemons w.commandMain w.daemons
          (Event.hook :: srcEvents
            ++ [Event.cmd (redisdArgs w), Event.cmd (machinedArgs w)]
            ++ p.1,
           p.2)

/-- The pid-collection loop of stop (the process matcher): for each
globbed /proc entry, skip it when its executable link cannot be read or
resolves to a different image; otherwise parse the pid out of the path
and keep it when it differs from the own pid of the supervisor. -/
def collectPids (w : World) (thisprog : String) : List String → List Int
  | [] => []
  | exe :: rest =>
    match w.readlink exe with
    | Except.error _ => collectPids w thisprog rest
    | Except.ok prog =>
      if prog ≠ thisprog then collectPids w thisprog rest
      else
        let pid := sscanInt (goTrimHead (goTrimTail exe "/exe") "/proc/")
        if pid ≠ w.thispid then pid :: collectPids w thisprog rest
        else collectPids w thisprog rest

/-- The stop pipeline: resolve the own executable link of the supervisor,
glob the /proc executable links, collect the sibling pids, SIGTERM each
pid whose stat probe succeeds, sleep 2 seconds, SIGKILL each pid whose
stat probe succeeds then, and finally call sockfile.RemoveAll and
pidfile.RemoveAll — whose results the Go code discards: stop returns
nil whenever discovery succeeded. -/
def stop (w : World) : List Event × Except Err Unit :=
  match w.selfExe with
  | Except.error e => ([], Except.error e)
  | Except.ok thisprog =>
    match w.glob with
    | Except.error e => ([], Except.error e)
    | Except.ok exes =>
      let pids := collectPids w thisprog exes
      ((pids.filter w.alive1).map Event.sigterm
        ++ [Event.sleep 2]
        ++ (pids.filter w.alive2).map Event.sigkill
        ++ [Event.rmSock, Event.rmPid],
       Except.ok ())

/-- The registered daemons that the auxiliary loop actually launches:
those whose priority level is non-negative, kept in registration
order. -/
def enabledDaemons (ds : List (String × Int)) : List (String × Int) :=
  ds.filter (fun d => !decide (d.2 < 0))

/-- The full ordered list of startup actions Main attempts when it is
invoked with no arguments by a privileged caller: the hook, the
sourcing of /etc/goesd when the file exists, the store daemon, the
configuration daemon, and every enabled auxiliary daemon in
registration order. -/
def plannedEvents (w : World) : List Event :=
  Event.hook
    :: (if w.etcExists then [Event.cmd ["source", EtcGoesd]] else [])
    ++ [Event.cmd (redisdArgs w), Event.cmd (machinedArgs w)]
    ++ (enabledDaemons w.daemons).map (fun d => Event.cmd [d.1])

/-- The outcome of one startup action in world `w`. -/
def actionResult (w : World) : Event → Except Err Unit
  | Event.hook => w.hook
  | Event.cmd a => w.commandMain a
  | _ => Except.ok ()

/-- Reference sequencer: run the listed actions in order, abort at the
first error and return it; the trace records every action whose call
was made (the failing one included). -/
def runSeq (act : Event → Except Err Unit) :
    List Event → List Event × Except Err Unit
  | [] => ([], Except.ok ())
  | e :: rest =>
    match act e with
    | Except.error err => ([e], Except.error err)
    | Except.ok _ =>
      let p := runSeq act rest
      (e :: p.1, p.2)

/-- Main: the privilege gate and the argument dispatch.  A non-root
caller gets ErrNotRoot and nothing happens; with no arguments the
startup sequencer runs; with first argument "stop" the stop pipeline
runs; any other argument list is rejected with the unexpected error. -/
def Main (w : World) (args : List String) : List Event × Except Err Unit :=
  if w.euid ≠ 0 then ([], Except.error Err.notRoot)
  else
    match args with
    | [] => startMain w
    | a :: _ =>
      if a = "stop" then stop w
      else ([], Except.error (Err.unexpected args))

/-! ### The startup sequencer is the reference abort-on-first-failure
sequencer run on the planned action list -/

theorem runDaemons_eq_runSeq (w : World) (ds : List (String × Int)) :
    runDaemons w.commandMain ds
      = runSeq (actionResult w)
          ((enabledDaemons ds).map (fun d => Event.cmd [d.1])) := by
  induction ds with
  | nil => rfl
  | cons d rest ih =>
    obtain ⟨name, lvl⟩ := d
    by_cases h : lvl < 0
    · simpa [runDaemons, enabledDaemons, h, List.filter_cons] using ih
    · rcases hcm : w.commandMain [name] with e | u
      · simp [runDaemons, enabledDaemons, h, List.filter_cons, runSeq,
          actionResult, hcm]
      · simp [runDaemons, enabledDaemons, h, List.filter_cons, runSeq,
          actionResult, hcm, ih]

theorem startMain_eq_runSeq (w : World) :
    startMain w = runSeq (actionResult w) (plannedEvents w) := by
  rcases hh : w.hook with e | u
  · simp [startMain, plannedEvents, runSeq, actionResult, hh]
  · by_cases he : w.etcExists
    · rcases hs : w.commandMain ["source", EtcGoesd] with e | u
      · simp [startMain, plannedEvents, runSeq, actionResult, hh, hs, he]
      · rcases hr : w.commandMain (redisdArgs w) with e | u
        · simp [startMain, plannedEvents, runSeq, actionResult, hh, hs, hr, he]
        · rcases hm : w.commandMain (machinedArgs w) with e | u
          · simp [startMain, plannedEvents, runSeq, actionResult,
              hh, hs, hr, hm, he]
          · simp [startMain, plannedEvents, runSeq, actionResult,
              hh, hs, hr, hm, he, runDaemons_eq_runSeq]
    · rcases hr : w.commandMain (redisdArgs w) with e | u
      · simp [startMain, plannedEvents, runSeq, actionResult, hh, hr, he]
      · rcases hm : w.commandMain (machinedArgs w) with e | u
        · simp [startMain, plannedEvents, runSeq, actionResult, hh, hr, hm, he]
        · simp [startMain, plannedEvents, runSeq, actionResult,
            hh, hr, hm, he, runDaemons_eq_runSeq]

theorem Main_nil_eq_runSeq (w : World) (hroot : w.euid = 0) :
    Main w [] = runSeq (actionResult w) (plannedEvents w) := by
  simp [Main, hroot, startMain_eq_runSeq]

/-! ### Generic facts about the reference sequencer -/

theorem runSeq_of_all_ok (act : Event → Except Err Unit) (l : List Event)
    (h : ∀ e ∈ l, act e = Except.ok ()) :
    runSeq act l = (l, Except.ok ()) := by
  induction l with
  | nil => rfl
  | cons e rest ih =>
    have he := h e (List.mem_cons_self e rest)
    have hr := ih (fun x hx => h x (List.mem_cons_of_mem _ hx))
    simp [runSeq, he, hr]

theorem runSeq_ok_forall (act : Event → Except Err Unit) (l : List Event)
    (h : (runSeq act l).2 = Except.ok ()) :
    ∀ e ∈ l, act e = Except.ok () := by
  induction l with
  | nil => simp
  | cons e rest ih =>
    rcases ha : act e with er | u
    · simp [runSeq, ha] at h
    · intro x hx
      have h2 : (runSeq act rest).2 = Except.ok () := by
        simpa [runSeq, ha] using h
      rcases List.mem_cons.mp hx with hx | hx
      · simpa [hx] using ha
      · exact ih h2 x hx

theorem runSeq_error_decomp (act : Event → Except Err Unit) (l : List Event)
    (err : Err) (h : (runSeq act l).2 = Except.error err) :
    ∃ l1 e l2, l = l1 ++ e :: l2 ∧ (runSeq act l).1 = l1 ++ [e] ∧
      act e = Except.error err ∧ ∀ x ∈ l1, act x = Except.ok () := by
  induction l with
  | nil => simp [runSeq] at h
  | cons e rest ih =>
    rcases ha : act e with er | u
    · have herr : er = err := by simpa [runSeq, ha] using h
      refine ⟨[], e, rest, by simp, by simp [runSeq, ha], ?_, by simp⟩
      rw [ha, herr]
    · have h2 : (runSeq act rest).2 = Except.error err := by
        simpa [runSeq, ha] using h
      obtain ⟨l1, e1, l2, hl, ht, hae, hok⟩ := ih h2
      refine ⟨e :: l1, e1, l2, by simp [hl], by simp [runSeq, ha, ht],
        hae, ?_⟩
      intro x hx
      rcases List.mem_cons.mp hx with hx | hx
      · simpa [hx] using ha
      · exact hok x hx

/-! ### Claim theorems -/

/-- C1: with empty args and a privileged caller, Main runs the startup
actions in the fixed order hook, env-file sourcing, store daemon,
config daemon, auxiliaries (the list plannedEvents).  If the K-th
action fails, Main returns the error of that action unchanged, the actions
before it have each completed their call exactly once, and the actions
after it are never attempted; on success every planned action — in
particular every enabled daemon launch — has run exactly once, in that
order. -/
theorem main_startup_order_and_abort (w : World)
    (hroot : w.euid = 0) (hnd : (plannedEvents w).Nodup) :
    ((Main w []).2 = Except.ok () →
      (Main w []).1 = plannedEvents w ∧
      (∀ e ∈ plannedEvents w, actionResult w e = Except.ok ()) ∧
      ∀ e ∈ plannedEvents w, (Main w []).1.count e = 1) ∧
    ∀ err, (Main w []).2 = Except.error err →
      ∃ l1 e l2, plannedEvents w = l1 ++ e :: l2 ∧
        (Main w []).1 = l1 ++ [e] ∧
        actionResult w e = Except.error err ∧
        (∀ x ∈ l1, actionResult w x = Except.ok () ∧
          (Main w []).1.count x = 1) ∧
        ∀ x ∈ l2, x ∉ (Main w []).1 := by
  have hm := Main_nil_eq_runSeq w hroot
  constructor
  · intro hok
    rw [hm] at hok ⊢
    have hall := runSeq_ok_forall _ _ hok
    rw [runSeq_of_all_ok _ _ hall]
    exact ⟨rfl, hall, fun e he => List.count_eq_one_of_mem hnd he⟩
  · intro err herr
    rw [hm] at herr ⊢
    obtain ⟨l1, e, l2, hl, ht, hae, hok⟩ := runSeq_error_decomp _ _ _ herr
    have hnd' : (l1 ++ e :: l2).Nodup := hl ▸ hnd
    have hnd2 : (l1 ++ [e]).Nodup := by
      refine hnd'.sublist (List.Sublist.append_left ?_ l1)
      exact List.singleton_sublist.mpr (List.mem_cons_self e l2)
    refine ⟨l1, e, l2, hl, ht, hae, ?_, ?_⟩
    · intro x hx
      refine ⟨hok x hx, ?_⟩
      rw [ht]
      exact List.count_eq_one_of_mem hnd2 (List.mem_append_left _ hx)
    · intro x hx hmem
      rw [ht] at hmem
      rcases List.mem_append.mp hmem with h1 | h1
      · exact (List.disjoint_of_nodup_append hnd') h1
          (List.mem_cons_of_mem e hx)
      · have hx_e : x = e := by simpa using h1
        have : (e :: l2).Nodup := (List.nodup_append.mp hnd').2.1
        exact (List.nodup_cons.mp this).1 (hx_e ▸ hx)

/-- A concrete world for witnesses: privileged caller, /etc/goesd
present, REDISD set to "--bind 127.0.0.1", MACHINED unset, registry
{foo: 0, bar: -1, baz: 1}, every external call succeeding; one stale
/proc entry (pid 7) whose link is gone, one live sibling (pid 99), the
supervisor itself at pid 42. -/
def wOk : World where
  euid := 0
  hook := Except.ok ()
  etcExists := true
  getenv := fun v => if v = "REDISD" then "--bind 127.0.0.1" else ""
  commandMain := fun _ => Except.ok ()
  daemons := [("foo", 0), ("bar", -1), ("baz", 1)]
  selfExe := Except.ok "/usr/sbin/goesd"
  thispid := 42
  glob := Except.ok
    ["/proc/1/exe", "/proc/7/exe", "/proc/42/exe", "/proc/self/exe",
     "/proc/99/exe"]
  readlink := fun s =>
    if s = "/proc/7/exe" then Except.error (Err.ext "no such process")
    else if s = "/proc/1/exe" then Except.ok "/sbin/init"
    else Except.ok "/usr/sbin/goesd"
  alive1 := fun p => p = 99
  alive2 := fun p => p = 99
  sockRemove := Except.ok ()
  pidRemove := Except.ok ()

/-- Witness for C1: in the all-succeeding concrete world the startup
run succeeds and its trace is exactly the planned action list. -/
theorem main_startup_order_and_abort_witness :
    (Main wOk []).2 = Except.ok () ∧ (Main wOk []).1 = plannedEvents wOk := by
  have h := main_startup_order_and_abort wOk rfl (by decide)
  exact ⟨rfl, (h.1 rfl).1⟩

/-- The store-daemon launch always passes "redisd" followed by the
fields of $REDISD (the two branches of the Go code coincide). -/
theorem redisdArgs_eq (w : World) :
    redisdArgs w = "redisd" :: strFields (w.getenv "REDISD") := by
  by_cases h : (strFields (w.getenv "REDISD")).length > 0
  · simp [redisdArgs, h]
  · have h0 : strFields (w.getenv "REDISD") = [] :=
      List.length_eq_zero.mp (by omega)
    simp [redisdArgs, h0]

/-- The configuration-daemon launch always passes "machined" followed
by the fields of $MACHINED. -/
theorem machinedArgs_eq (w : World) :
    machinedArgs w = "machined" :: strFields (w.getenv "MACHINED") := by
  by_cases h : (strFields (w.getenv "MACHINED")).length > 0
  · simp [machinedArgs, h]
  · have h0 : strFields (w.getenv "MACHINED") = [] :=
      List.length_eq_zero.mp (by omega)
    simp [machinedArgs, h0]

/-- Every action in the trace of the sequencer is a planned action. -/
theorem runSeq_trace_mem (act : Event → Except Err Unit) (l : List Event) :
    ∀ x ∈ (runSeq act l).1, x ∈ l := by
  induction l with
  | nil => simp [runSeq]
  | cons e rest ih =>
    intro x hx
    rcases ha : act e with er | u
    · simp only [runSeq, ha] at hx
      simpa using List.mem_cons.mpr (Or.inl (by simpa using hx))
    · simp only [runSeq, ha] at hx
      rcases List.mem_cons.mp hx with h | h
      · exact List.mem_cons.mpr (Or.inl h)
      · exact List.mem_cons.mpr (Or.inr (ih x h))

/-- C2: the spec states that across repeated runs with the same
registry and environment the relative auxiliary launch order is fixed
(registration order), but the code ranges over the command.Daemon map,
whose iteration order Go leaves unspecified and randomizes between
runs.  The daemons field records the iteration order one run observes;
here two iteration orders that the map range may produce for the very
same registry, foo priority 0 and baz priority 1, both succeed and
yield different launch orders — the code cannot guarantee the
determinism the spec demands. -/
theorem aux_launch_order_follows_map_iteration_order :
    ({ wOk with daemons := [("foo", 0), ("baz", 1)] } : World).daemons.Perm
      ({ wOk with daemons := [("baz", 1), ("foo", 0)] } : World).daemons ∧
    (Main { wOk with daemons := [("foo", 0), ("baz", 1)] } []).2
      = Except.ok () ∧
    (Main { wOk with daemons := [("baz", 1), ("foo", 0)] } []).2
      = Except.ok () ∧
    (Main { wOk with daemons := [("foo", 0), ("baz", 1)] } []).1
      ≠ (Main { wOk with daemons := [("baz", 1), ("foo", 0)] } []).1 :=
  ⟨by decide, rfl, rfl, by decide⟩

/-- C3: a caller whose effective uid is not 0 gets ErrNotRoot back and
the supervisor performs no action at all: the trace is empty — no hook
call, no sourcing, no daemon launch, no process enumeration effect, no
signal, no file removal — for every argument list. -/
theorem main_not_root (w : World) (args : List String) (h : w.euid ≠ 0) :
    Main w args = ([], Except.error Err.notRoot) := by
  simp [Main, h]

/-- Witness for C3: a non-root stop request in the concrete world. -/
theorem main_not_root_witness :
    Main { wOk with euid := 1000 } ["stop"]
      = ([], Except.error Err.notRoot) :=
  main_not_root { wOk with euid := 1000 } ["stop"] (by decide)

/-- The world of end-to-end scenario A: registry foo:0, bar:-1, baz:1,
no /etc/goesd, no environment overrides, every call succeeding. -/
def wA : World := { wOk with etcExists := false, getenv := (fun _ => "") }

/-- A daemon whose single registered priority is negative never
appears among the enabled daemons. -/
theorem enabled_no_negative (w : World) (name : String) (lvl : Int)
    (hneg : lvl < 0) (huniq : ∀ p ∈ w.daemons, p.1 = name → p.2 = lvl) :
    ∀ l2, (name, l2) ∈ enabledDaemons w.daemons → False := by
  intro l2 hd
  simp only [enabledDaemons] at hd
  have hd2 := List.mem_filter.mp hd
  have hl2 := huniq (name, l2) hd2.1 rfl
  rw [hl2] at hd2
  simpa [hneg] using hd2.2

/-- C6: an auxiliary daemon registered with a negative priority level
is never launched, wherever it sits in the registration order: the
auxiliary loop emits no launch for it, and — when its name is distinct
from the store and config daemon names, so that a launch event is
unambiguous — no launch of it appears anywhere in the startup run
(huniq records that the registry, being a map, holds one priority per
name); and in scenario A — registry foo:0, bar:-1, baz:1 with every
call succeeding — the run is hook, store, config, foo, baz, with bar
never launched. -/
theorem negative_priority_never_launched (w : World)
    (name : String) (lvl : Int) (hroot : w.euid = 0)
    (hmem : (name, lvl) ∈ w.daemons) (hneg : lvl < 0)
    (huniq : ∀ p ∈ w.daemons, p.1 = name → p.2 = lvl)
    (hr : name ≠ "redisd") (hm : name ≠ "machined") :
    Event.cmd [name] ∉ (runDaemons w.commandMain w.daemons).1 ∧
    Event.cmd [name] ∉ (Main w []).1 ∧
    Main wA []
      = ([Event.hook, Event.cmd ["redisd"], Event.cmd ["machined"],
          Event.cmd ["foo"], Event.cmd ["baz"]], Except.ok ()) := by
  refine ⟨?_, ?_, rfl⟩
  · intro htr
    rw [runDaemons_eq_runSeq] at htr
    have hp := runSeq_trace_mem _ _ _ htr
    simp [List.mem_map] at hp
    obtain ⟨l2, hd⟩ := hp
    exact enabled_no_negative w name lvl hneg huniq l2 hd
  · intro htr
    rw [Main_nil_eq_runSeq w hroot] at htr
    have hp : Event.cmd [name] ∈ plannedEvents w :=
      runSeq_trace_mem (actionResult w) (plannedEvents w) _ htr
    simp [plannedEvents, redisdArgs_eq, machinedArgs_eq, List.mem_cons,
      List.mem_append, List.mem_map, List.cons_append,
      List.mem_singleton] at hp
    rcases hp with ⟨rfl, -⟩ | ⟨rfl, -⟩ | ⟨l2, hd⟩
    · exact hr rfl
    · exact hm rfl
    · exact enabled_no_negative w name lvl hneg huniq l2 hd

/-- Witness for C6 at the daemon bar of scenario A. -/
theorem negative_priority_never_launched_witness :
    Event.cmd ["bar"] ∉ (runDaemons wA.commandMain wA.daemons).1 ∧
    Event.cmd ["bar"] ∉ (Main wA []).1 ∧
    Main wA []
      = ([Event.hook, Event.cmd ["redisd"], Event.cmd ["machined"],
          Event.cmd ["foo"], Event.cmd ["baz"]], Except.ok ()) :=
  negative_priority_never_launched wA "bar" (-1) rfl (by decide)
    (by decide) (by decide) (by decide) (by decide)

/-- C7: the store daemon is always launched with "redisd" followed by
exactly the whitespace-split tokens of $REDISD — none when the
variable is empty or unset — and the configuration daemon likewise
with "machined" and $MACHINED; concretely "--bind 127.0.0.1" splits
into the two tokens "--bind", "127.0.0.1" and the empty value into
none. -/
theorem env_override_args (w : World) (hroot : w.euid = 0)
    (hhook : w.hook = Except.ok ())
    (hsrc : w.etcExists = true →
      w.commandMain ["source", EtcGoesd] = Except.ok ()) :
    (∃ rest, (Main w []).1
        = Event.hook
            :: (if w.etcExists then [Event.cmd ["source", EtcGoesd]] else [])
            ++ Event.cmd ("redisd" :: strFields (w.getenv "REDISD")) :: rest) ∧
    (w.commandMain (redisdArgs w) = Except.ok () →
      ∃ rest, (Main w []).1
        = Event.hook
            :: (if w.etcExists then [Event.cmd ["source", EtcGoesd]] else [])
            ++ Event.cmd ("redisd" :: strFields (w.getenv "REDISD"))
            :: Event.cmd ("machined" :: strFields (w.getenv "MACHINED"))
            :: rest) ∧
    strFields "--bind 127.0.0.1" = ["--bind", "127.0.0.1"] ∧
    strFields "" = [] := by
  have hre := redisdArgs_eq w
  have hme := machinedArgs_eq w
  refine ⟨?_, ?_, by decide, by decide⟩ <;>
    rcases hE : w.etcExists with _ | _
  · rcases hcr : w.commandMain ("redisd" :: strFields (w.getenv "REDISD"))
      with e | u
    · exact ⟨[], by simp [Main, hroot, startMain, hhook, hE, hcr, hre]⟩
    · rcases hcm : w.commandMain
          ("machined" :: strFields (w.getenv "MACHINED")) with e | u
      · exact ⟨[Event.cmd ("machined" :: strFields (w.getenv "MACHINED"))],
          by simp [Main, hroot, startMain, hhook, hE, hcr, hcm, hre, hme]⟩
      · exact ⟨Event.cmd ("machined" :: strFields (w.getenv "MACHINED"))
            :: (runDaemons w.commandMain w.daemons).1,
          by simp [Main, hroot, startMain, hhook, hE, hcr, hcm, hre, hme]⟩
  · have hs := hsrc hE
    rcases hcr : w.commandMain ("redisd" :: strFields (w.getenv "REDISD"))
      with e | u
    · exact ⟨[], by simp [Main, hroot, startMain, hhook, hE, hs, hcr, hre]⟩
    · rcases hcm : w.commandMain
          ("machined" :: strFields (w.getenv "MACHINED")) with e | u
      · exact ⟨[Event.cmd ("machined" :: strFields (w.getenv "MACHINED"))],
          by simp [Main, hroot, startMain, hhook, hE, hs, hcr, hcm, hre, hme]⟩
      · exact ⟨Event.cmd ("machined" :: strFields (w.getenv "MACHINED"))
            :: (runDaemons w.commandMain w.daemons).1,
          by simp [Main, hroot, startMain, hhook, hE, hs, hcr, hcm, hre, hme]⟩
  · intro hcr
    rw [hre] at hcr
    rcases hcm : w.commandMain
        ("machined" :: strFields (w.getenv "MACHINED")) with e | u
    · exact ⟨[], by simp [Main, hroot, startMain, hhook, hE, hcr, hcm,
        hre, hme]⟩
    · exact ⟨(runDaemons w.commandMain w.daemons).1,
        by simp [Main, hroot, startMain, hhook, hE, hcr, hcm, hre, hme]⟩
  · intro hcr
    rw [hre] at hcr
    have hs := hsrc hE
    rcases hcm : w.commandMain
        ("machined" :: strFields (w.getenv "MACHINED")) with e | u
    · exact ⟨[], by simp [Main, hroot, startMain, hhook, hE, hs, hcr, hcm,
        hre, hme]⟩
    · exact ⟨(runDaemons w.commandMain w.daemons).1,
        by simp [Main, hroot, startMain, hhook, hE, hs, hcr, hcm, hre, hme]⟩

/-- Witness for C7 at the world of scenario B: REDISD set to
"--bind 127.0.0.1" and MACHINED unset. -/
theorem env_override_args_witness :
    (∃ rest, (Main wOk []).1
        = Event.hook
            :: (if wOk.etcExists then [Event.cmd ["source", EtcGoesd]] else [])
            ++ Event.cmd ("redisd" :: strFields (wOk.getenv "REDISD"))
            :: rest) ∧
    (wOk.commandMain (redisdArgs wOk) = Except.ok () →
      ∃ rest, (Main wOk []).1
        = Event.hook
            :: (if wOk.etcExists then [Event.cmd ["source", EtcGoesd]] else [])
            ++ Event.cmd ("redisd" :: strFields (wOk.getenv "REDISD"))
            :: Event.cmd ("machined" :: strFields (wOk.getenv "MACHINED"))
            :: rest) ∧
    strFields "--bind 127.0.0.1" = ["--bind", "127.0.0.1"] ∧
    strFields "" = [] :=
  env_override_args wOk rfl rfl (fun _ => rfl)

/-! ### The stop pipeline -/

theorem sigterm_injective : Function.Injective Event.sigterm := by
  intro a b h
  injection h

theorem sigkill_injective : Function.Injective Event.sigkill := by
  intro a b h
  injection h

/-- When discovery succeeds, the run of the stop pipeline is: SIGTERM to the
collected pids that probe alive, the 2 second sleep, SIGKILL to those
that probe alive afterwards, then the two removals, with a nil
result. -/
theorem stop_eq (w : World) (thisprog : String) (exes : List String)
    (h1 : w.selfExe = Except.ok thisprog) (h2 : w.glob = Except.ok exes) :
    stop w
      = (((collectPids w thisprog exes).filter w.alive1).map Event.sigterm
          ++ [Event.sleep 2]
          ++ ((collectPids w thisprog exes).filter w.alive2).map Event.sigkill
          ++ [Event.rmSock, Event.rmPid], Except.ok ()) := by
  simp [stop, h1, h2]

/-- C4: in a stop run whose discovery succeeds (with distinct collected
identifiers), the run reports no failure; a graceful signal goes
exactly once to each collected identifier alive at the first probe and
never to a dead one; a forceful signal goes to an identifier iff it is
a collected one still alive after the interval, exactly once; and the
trace splits at the single 2-second sleep: no forceful signal before
it, no graceful signal after it, and no further wait anywhere — in
particular none after the forceful signals. -/
theorem termination_escalator (w : World) (thisprog : String)
    (exes : List String)
    (h1 : w.selfExe = Except.ok thisprog) (h2 : w.glob = Except.ok exes)
    (hnd : (collectPids w thisprog exes).Nodup) :
    (stop w).2 = Except.ok () ∧
    (∀ pid : Int, Event.sigterm pid ∈ (stop w).1 ↔
      pid ∈ collectPids w thisprog exes ∧ w.alive1 pid = true) ∧
    (∀ pid ∈ collectPids w thisprog exes, w.alive1 pid = true →
      (stop w).1.count (Event.sigterm pid) = 1) ∧
    (∀ pid : Int, Event.sigkill pid ∈ (stop w).1 ↔
      pid ∈ collectPids w thisprog exes ∧ w.alive2 pid = true) ∧
    (∀ pid ∈ collectPids w thisprog exes, w.alive2 pid = true →
      (stop w).1.count (Event.sigkill pid) = 1) ∧
    ∃ pre post, (stop w).1 = pre ++ Event.sleep 2 :: post ∧
      (∀ pid : Int, Event.sigkill pid ∉ pre) ∧
      (∀ pid : Int, Event.sigterm pid ∉ post) ∧
      (∀ s : Nat, Event.sleep s ∉ pre) ∧
      (∀ s : Nat, Event.sleep s ∉ post) := by
  rw [stop_eq w thisprog exes h1 h2]
  refine ⟨rfl, ?_, ?_, ?_, ?_, ?_⟩
  · intro pid
    simp [List.mem_append, List.mem_filter, List.mem_map]
  · intro pid hmem halive
    have c1 : (((collectPids w thisprog exes).filter w.alive1).map
        Event.sigterm).count (Event.sigterm pid) = 1 := by
      rw [List.count_map_of_injective _ _ sigterm_injective]
      exact List.count_eq_one_of_mem (hnd.filter _)
        (List.mem_filter.mpr ⟨hmem, halive⟩)
    simp [List.count_append, c1, List.count_eq_zero]
  · intro pid
    simp [List.mem_append, List.mem_filter, List.mem_map]
  · intro pid hmem halive
    have c1 : (((collectPids w thisprog exes).filter w.alive2).map
        Event.sigkill).count (Event.sigkill pid) = 1 := by
      rw [List.count_map_of_injective _ _ sigkill_injective]
      exact List.count_eq_one_of_mem (hnd.filter _)
        (List.mem_filter.mpr ⟨hmem, halive⟩)
    simp [List.count_append, c1, List.count_eq_zero]
  · refine ⟨((collectPids w thisprog exes).filter w.alive1).map Event.sigterm,
      ((collectPids w thisprog exes).filter w.alive2).map Event.sigkill
        ++ [Event.rmSock, Event.rmPid], by simp, ?_, ?_, ?_, ?_⟩ <;>
      intro x <;> simp [List.mem_append, List.mem_map]

/-- The world of end-to-end scenario C: two live siblings, pid 50 that
exits during the grace interval and pid 99 that survives it. -/
def wC : World :=
  { wOk with
    glob := Except.ok ["/proc/50/exe", "/proc/99/exe"]
    alive1 := (fun p => p = 50 || p = 99)
    alive2 := (fun p => p = 99) }

/-- Witness for C4 at scenario C: both siblings get one graceful
signal, only the survivor 99 gets the forceful one, and pid 50 is
never forcefully killed. -/
theorem termination_escalator_witness :
    (stop wC).2 = Except.ok () ∧
    (stop wC).1.count (Event.sigterm 50) = 1 ∧
    (stop wC).1.count (Event.sigterm 99) = 1 ∧
    (stop wC).1.count (Event.sigkill 99) = 1 ∧
    Event.sigkill 50 ∉ (stop wC).1 := by
  have h := termination_escalator wC "/usr/sbin/goesd"
    ["/proc/50/exe", "/proc/99/exe"] rfl rfl (by decide)
  refine ⟨h.1, h.2.2.1 50 (by decide) (by decide),
    h.2.2.1 99 (by decide) (by decide),
    h.2.2.2.2.1 99 (by decide) (by decide), ?_⟩
  intro hmem
  have hc := ((h.2.2.2.1 50).mp hmem).2
  exact absurd hc (by decide)

/-- Every identifier the matcher collects differs from the own pid of
the supervisor and comes from an entry whose link resolved exactly to
the own path of the supervisor. -/
theorem collectPids_mem (w : World) (thisprog : String) :
    ∀ exes, ∀ pid ∈ collectPids w thisprog exes, pid ≠ w.thispid ∧
      ∃ exe ∈ exes, w.readlink exe = Except.ok thisprog ∧
        pid = sscanInt (goTrimHead (goTrimTail exe "/exe") "/proc/") := by
  intro exes
  induction exes with
  | nil => simp [collectPids]
  | cons exe rest ih =>
    intro pid hpid
    rcases hr : w.readlink exe with e | prog
    · simp only [collectPids, hr] at hpid
      obtain ⟨hne, exe2, hm2, hok2, hps2⟩ := ih pid hpid
      exact ⟨hne, exe2, List.mem_cons_of_mem _ hm2, hok2, hps2⟩
    · by_cases hp : prog = thisprog
      · subst hp
        simp only [collectPids, hr, ne_eq, not_true_eq_false, if_false] at hpid
        by_cases hq :
            sscanInt (goTrimHead (goTrimTail exe "/exe") "/proc/") ≠ w.thispid
        · rw [if_pos hq] at hpid
          rcases List.mem_cons.mp hpid with rfl | hpid2
          · exact ⟨hq, exe, List.mem_cons_self exe rest, hr, rfl⟩
          · obtain ⟨hne, exe2, hm2, hok2, hps2⟩ := ih pid hpid2
            exact ⟨hne, exe2, List.mem_cons_of_mem _ hm2, hok2, hps2⟩
        · rw [if_neg hq] at hpid
          obtain ⟨hne, exe2, hm2, hok2, hps2⟩ := ih pid hpid
          exact ⟨hne, exe2, List.mem_cons_of_mem _ hm2, hok2, hps2⟩
      · simp only [collectPids, hr, ne_eq, hp, not_false_eq_true,
          if_true] at hpid
        obtain ⟨hne, exe2, hm2, hok2, hps2⟩ := ih pid hpid
        exact ⟨hne, exe2, List.mem_cons_of_mem _ hm2, hok2, hps2⟩

/-- C5: the process matcher keeps an identifier only when the executable link
of the entry resolves exactly to the own resolved path of the supervisor
and the parsed identifier differs from the own pid of the supervisor; an
entry whose link cannot be read is silently skipped; and the own pid of the caller is never in the result. -/
theorem process_matcher_sound (w : World) (thisprog : String)
    (exes : List String) :
    (∀ exe rest e, w.readlink exe = Except.error e →
      collectPids w thisprog (exe :: rest) = collectPids w thisprog rest) ∧
    (∀ pid ∈ collectPids w thisprog exes, pid ≠ w.thispid ∧
      ∃ exe ∈ exes, w.readlink exe = Except.ok thisprog ∧
        pid = sscanInt (goTrimHead (goTrimTail exe "/exe") "/proc/")) ∧
    w.thispid ∉ collectPids w thisprog exes := by
  refine ⟨?_, collectPids_mem w thisprog exes, ?_⟩
  · intro exe rest e herr
    simp [collectPids, herr]
  · intro hself
    exact (collectPids_mem w thisprog exes w.thispid hself).1 rfl

/-- Witness for C5 at the concrete world: the unreadable entry of the
dead pid 7 is skipped, and the own pid of the supervisor 42 is absent from
the collected siblings. -/
theorem process_matcher_sound_witness :
    collectPids wOk "/usr/sbin/goesd"
        ("/proc/7/exe" :: ["/proc/42/exe", "/proc/99/exe"])
      = collectPids wOk "/usr/sbin/goesd" ["/proc/42/exe", "/proc/99/exe"] ∧
    wOk.thispid ∉ collectPids wOk "/usr/sbin/goesd"
      ["/proc/1/exe", "/proc/7/exe", "/proc/42/exe", "/proc/self/exe",
       "/proc/99/exe"] := by
  have h := process_matcher_sound wOk "/usr/sbin/goesd"
    ["/proc/1/exe", "/proc/7/exe", "/proc/42/exe", "/proc/self/exe",
     "/proc/99/exe"]
  exact ⟨h.1 "/proc/7/exe" ["/proc/42/exe", "/proc/99/exe"]
    (Err.ext "no such process") rfl, h.2.2⟩

/-- C8: if reading the own executable link of the supervisor fails, or the
enumeration of the /proc entries fails, stop returns that very error
with an empty trace: no signal has been sent and no artifact has been
removed. -/
theorem stop_discovery_failure (w : World) (e : Err) :
    (w.selfExe = Except.error e → stop w = ([], Except.error e)) ∧
    (∀ thisprog, w.selfExe = Except.ok thisprog →
      w.glob = Except.error e → stop w = ([], Except.error e)) := by
  constructor
  · intro h
    simp [stop, h]
  · intro tp h1 h2
    simp [stop, h1, h2]

/-- Witness for C8: a failing readlink and a failing glob in the
concrete world. -/
theorem stop_discovery_failure_witness :
    stop { wOk with selfExe := Except.error (Err.ext "EACCES") }
      = ([], Except.error (Err.ext "EACCES")) ∧
    stop { wOk with glob := Except.error (Err.ext "EMFILE") }
      = ([], Except.error (Err.ext "EMFILE")) :=
  ⟨(stop_discovery_failure
      { wOk with selfExe := Except.error (Err.ext "EACCES") }
      (Err.ext "EACCES")).1 rfl,
   (stop_discovery_failure
      { wOk with glob := Except.error (Err.ext "EMFILE") }
      (Err.ext "EMFILE")).2 "/usr/sbin/goesd" rfl rfl⟩

/-- A world in which the socket-file removal would report a filesystem
error. -/
def wReclaimFail : World :=
  { wOk with sockRemove := Except.error (Err.ext "EACCES") }

/-- Counterexample to C9 as stated: the Go code discards the results of
sockfile.RemoveAll and pidfile.RemoveAll (stop unconditionally returns
nil after discovery), so even when the underlying removal reports a
filesystem error, stop reports success — the error is not surfaced to
the caller. -/
theorem reclaim_error_not_surfaced_cex :
    wReclaimFail.sockRemove = Except.error (Err.ext "EACCES") ∧
    (stop wReclaimFail).2 = Except.ok () ∧
    (stop wReclaimFail).2 ≠ Except.error (Err.ext "EACCES") :=
  ⟨rfl, rfl, fun h => nomatch h⟩

/-- C9 amended: every stop invocation that reaches the resource
reclaimer succeeds from the perspective of the caller unconditionally: both
removal calls are made at the very end of the run, any error they
produce is discarded rather than surfaced, and nothing in the run
restores artifacts already removed (there is no rollback action in the
trace). -/
theorem reclaim_always_ok (w : World) (thisprog : String)
    (exes : List String)
    (h1 : w.selfExe = Except.ok thisprog) (h2 : w.glob = Except.ok exes) :
    (stop w).2 = Except.ok () ∧
    ∃ pre, (stop w).1 = pre ++ [Event.rmSock, Event.rmPid] := by
  rw [stop_eq w thisprog exes h1 h2]
  exact ⟨rfl, ((collectPids w thisprog exes).filter w.alive1).map Event.sigterm
    ++ [Event.sleep 2]
    ++ ((collectPids w thisprog exes).filter w.alive2).map Event.sigkill,
    by simp⟩

/-- Witness for the amended C9 at the failing-removal world. -/
theorem reclaim_always_ok_witness :
    (stop wReclaimFail).2 = Except.ok () ∧
    ∃ pre, (stop wReclaimFail).1 = pre ++ [Event.rmSock, Event.rmPid] :=
  reclaim_always_ok wReclaimFail "/usr/sbin/goesd"
    ["/proc/1/exe", "/proc/7/exe", "/proc/42/exe", "/proc/self/exe",
     "/proc/99/exe"] rfl rfl

/-- An entry whose link resolves to the own path of the supervisor and
whose parsed identifier differs from the own pid of the supervisor
contributes that identifier to the collected list. -/
theorem collectPids_mem_of (w : World) (thisprog : String) (exe : String) :
    ∀ exes, exe ∈ exes → w.readlink exe = Except.ok thisprog →
      sscanInt (goTrimHead (goTrimTail exe "/exe") "/proc/") ≠ w.thispid →
      sscanInt (goTrimHead (goTrimTail exe "/exe") "/proc/")
        ∈ collectPids w thisprog exes := by
  intro exes
  induction exes with
  | nil => simp
  | cons a rest ih =>
    intro hmem hrl hne
    rcases List.mem_cons.mp hmem with rfl | hmem2
    · simp only [collectPids, hrl, ne_eq, not_true_eq_false, if_false,
        if_pos hne]
      exact List.mem_cons_self _ _
    · rcases hr : w.readlink a with e | prog
      · simp only [collectPids, hr]
        exact ih hmem2 hrl hne
      · by_cases hp : prog = thisprog
        · subst hp
          simp only [collectPids, hr, ne_eq, not_true_eq_false, if_false]
          by_cases hq :
              sscanInt (goTrimHead (goTrimTail a "/exe") "/proc/")
                ≠ w.thispid
          · rw [if_pos hq]
            exact List.mem_cons_of_mem _ (ih hmem2 hrl hne)
          · rw [if_neg hq]
            exact ih hmem2 hrl hne
        · simp only [collectPids, hr, ne_eq, hp, not_false_eq_true, if_true]
          exact ih hmem2 hrl hne

/-- C10: whenever the own executable link of the supervisor is readable and
the glob therefore also matches /proc/self/exe (hypotheses hself and
hrl record those OS facts), the pid segment "self" fails numeric
parsing, so the identifier 0 joins the target list; yet neither signal
is ever sent to identifier 0, because the liveness probe on
/proc/0/stat always fails (hypotheses hdead1 and hdead2). -/
theorem self_entry_pid_zero (w : World) (thisprog : String)
    (exes : List String)
    (h1 : w.selfExe = Except.ok thisprog) (h2 : w.glob = Except.ok exes)
    (hself : "/proc/self/exe" ∈ exes)
    (hrl : w.readlink "/proc/self/exe" = Except.ok thisprog)
    (hpid : w.thispid ≠ 0)
    (hdead1 : w.alive1 0 = false) (hdead2 : w.alive2 0 = false) :
    sscanInt (goTrimHead (goTrimTail "/proc/self/exe" "/exe") "/proc/") = 0 ∧
    (0 : Int) ∈ collectPids w thisprog exes ∧
    Event.sigterm 0 ∉ (stop w).1 ∧
    Event.sigkill 0 ∉ (stop w).1 := by
  have hparse :
      sscanInt (goTrimHead (goTrimTail "/proc/self/exe" "/exe") "/proc/")
        = 0 := by decide
  refine ⟨hparse, ?_, ?_, ?_⟩
  · have hm := collectPids_mem_of w thisprog "/proc/self/exe" exes hself hrl
      (by rw [hparse]; exact fun h => hpid h.symm)
    rw [hparse] at hm
    exact hm
  · rw [stop_eq w thisprog exes h1 h2]
    simp [List.mem_append, List.mem_map, List.mem_filter, hdead1]
  · rw [stop_eq w thisprog exes h1 h2]
    simp [List.mem_append, List.mem_map, List.mem_filter, hdead2]

/-- Witness for C10 at the concrete world: pid 0 from the self entry is
collected but receives no signal. -/
theorem self_entry_pid_zero_witness :
    (0 : Int) ∈ collectPids wOk "/usr/sbin/goesd"
      ["/proc/1/exe", "/proc/7/exe", "/proc/42/exe", "/proc/self/exe",
       "/proc/99/exe"] ∧
    Event.sigterm 0 ∉ (stop wOk).1 ∧
    Event.sigkill 0 ∉ (stop wOk).1 := by
  have h := self_entry_pid_zero wOk "/usr/sbin/goesd"
    ["/proc/1/exe", "/proc/7/exe", "/proc/42/exe", "/proc/self/exe",
     "/proc/99/exe"] rfl rfl (by decide) rfl (by decide) (by decide)
    (by decide)
  exact ⟨h.2.1, h.2.2.1, h.2.2.2⟩

end Goesd
